import Mathlib

/-!
Verification development for the loggy-node tracing subsystem.

Modelling conventions (shallow embedding of the TypeScript source):
* JavaScript strings are modelled as `List Char`.
* `Date` values are modelled abstractly as `Nat` (milliseconds since epoch);
  `Date.toISOString()` is modelled as the identity embedding of that abstract
  time value into the serialized span data (it is injective on valid dates,
  which is all the claims need).
* Randomness (`generateTraceId` / `generateSpanId`, which draw from a CSPRNG)
  is modelled by passing the freshly generated identifier as an explicit
  parameter to the operation that consumes it.
* The network (`fetch`) and the spans that concurrently arrive in the live
  buffer while a flush is awaiting the network are modelled as explicit
  parameters of `LoggyTracer.flush`.
* JavaScript objects used as string-keyed records (span attributes, header
  carriers) are modelled as insertion-ordered association lists with
  overwrite-on-existing-key update (`setKV`), matching JS object semantics.
-/

/-- JS object property write `m[k] = v`: overwrite in place if the key exists,
otherwise append at the end (JS objects preserve insertion order). -/
def setKV {β : Type} (m : List (List Char × β)) (k : List Char) (v : β) :
    List (List Char × β) :=
  match m with
  | [] => [(k, v)]
  | (k', v') :: rest =>
    if k' = k then (k', v) :: rest else (k', v') :: setKV rest k v

/-- JS object property read `m[k]`, `none` standing for `undefined`. -/
def lookupKV {β : Type} (m : List (List Char × β)) (k : List Char) : Option β :=
  match m with
  | [] => none
  | (k', v) :: rest => if k' = k then some v else lookupKV rest k

/-- The character class of the regexes `/^[0-9a-f]{n}$/` in context.ts. -/
def hexChars : List Char :=
  ['0', '1', '2', '3', '4', '5', '6', '7'] ++
  ['8', '9', 'a', 'b', 'c', 'd', 'e', 'f']

/-- Membership in the `[0-9a-f]` character class. -/
def isLowerHex (c : Char) : Bool :=
  decide (c ∈ hexChars)

/-- The WhiteSpace and LineTerminator characters removed by JS `String.prototype.trim`. -/
def wsChars : List Char :=
  ['\t', '\n', '\x0b', '\x0c', '\r', ' ', ' ', ' ', ' ', ' ',
   ' ', ' ', ' ', ' ', ' ', ' ', ' ', ' ',
   ' ', ' ', ' ', ' ', ' ', '　', '﻿']

/-- Whether a character is JS trimmable whitespace. -/
def isJSWS (c : Char) : Bool :=
  decide (c ∈ wsChars)

/-- JS `String.prototype.trim`: drop whitespace from both ends. -/
def trimJS (l : List Char) : List Char :=
  ((l.dropWhile isJSWS).reverse.dropWhile isJSWS).reverse

/-- JS `str.split("-")`: cut the string at every dash. `splitDash l` is never
empty and its concatenation interleaved with dashes is `l`. -/
def splitDash : List Char → List (List Char)
  | [] => [[]]
  | c :: rest =>
    let r := splitDash rest
    if c = '-' then
      [] :: r
    else
      match r with
      | [] => [[c]]
      | g :: gs => (c :: g) :: gs

/-- The regex test `/^[0-9a-f]{n}$/.test l`. -/
def hexMatch (n : Nat) (l : List Char) : Bool :=
  l.length == n && l.all isLowerHex

/-- Value of one hex digit, as computed by JS `parseInt(·, 16)` on a
lowercase hex digit (`'0'..'9'` → 0..9, `'a'..'f'` → 10..15). -/
def hexVal (c : Char) : Nat :=
  if 97 ≤ c.toNat then c.toNat - 87 else c.toNat - 48

/-- JS `parseInt(l, 16)` on a validated lowercase hex string. -/
def hexToNat (l : List Char) : Nat :=
  l.foldl (fun acc c => acc * 16 + hexVal c) 0

/-- `SpanContext` from types.ts. -/
structure SpanContext where
  traceId : List Char
  spanId : List Char
  traceFlags : Nat
  traceState : Option (List Char) := none
deriving DecidableEq

/-- `parseTraceparent` from context.ts: the `!header` empty-string guard, a
trim-then-split on dashes, field-count check, version check, hex-and-nonzero
checks on the two ids, hex check on the flags, then `parseInt(flags, 16)`. -/
def parseTraceparent (header : List Char) : Option SpanContext :=
  if header = [] then none
  else
    match splitDash (trimJS header) with
    | [version, traceId, spanId, flags] =>
      if version ≠ ['0', '0'] then none
      else if hexMatch 32 traceId = false ∨ traceId = List.replicate 32 '0' then none
      else if hexMatch 16 spanId = false ∨ spanId = List.replicate 16 '0' then none
      else if hexMatch 2 flags = false then none
      else some { traceId := traceId, spanId := spanId, traceFlags := hexToNat flags }
    | _ => none

/-- JS `l.padStart(2, "0")`. -/
def padStart2 (l : List Char) : List Char :=
  if 2 ≤ l.length then l else List.replicate (2 - l.length) '0' ++ l

/-- `formatTraceparent` from context.ts:
`"00-" + traceId + "-" + spanId + "-" + flags.toString(16).padStart(2, "0")`.
`Nat.toDigits 16` matches JS `Number.prototype.toString(16)` on naturals
(lowercase digits, no leading zeros, `"0"` for zero). -/
def formatTraceparent (ctx : SpanContext) : List Char :=
  ['0', '0'] ++ '-' :: (ctx.traceId ++ '-' :: (ctx.spanId ++ '-' ::
    padStart2 (Nat.toDigits 16 ctx.traceFlags)))

/-- A well-formed header assembled from its three variable fields; this is the
same concatenation shape `formatTraceparent` produces. -/
def headerOf (tid sid fl : List Char) : List Char :=
  ['0', '0'] ++ '-' :: (tid ++ '-' :: (sid ++ '-' :: fl))

/-- The validation conditions of claim C3 read literally on the raw input: the
dash-separated fields of the input itself (no trimming), version `00`, 32
lowercase-hex non-zero trace id, 16 lowercase-hex non-zero span id, 2
lowercase-hex flags; `none` exactly when validation fails, otherwise a
`SpanContext` carrying those fields. -/
def specParseC3raw (h : List Char) : Option SpanContext :=
  match splitDash h with
  | [version, traceId, spanId, flags] =>
    if version = ['0', '0'] ∧ hexMatch 32 traceId = true ∧
        traceId ≠ List.replicate 32 '0' ∧ hexMatch 16 spanId = true ∧
        spanId ≠ List.replicate 16 '0' ∧ hexMatch 2 flags = true then
      some { traceId := traceId, spanId := spanId, traceFlags := hexToNat flags }
    else none
  | _ => none

/-- The validation conditions of claim C3 applied to the whitespace-trimmed
input — the amendment the code forces (context.ts trims before splitting). -/
def specParseC3trim (h : List Char) : Option SpanContext :=
  specParseC3raw (trimJS h)

/-- JS `list.join(",")`. -/
def joinComma : List (List Char) → List Char
  | [] => []
  | [x] => x
  | x :: xs => x ++ ',' :: joinComma xs

/-- `formatTracestate` from context.ts: render each entry as `key=value` and
join with commas. -/
def formatTracestate (state : List (List Char × List Char)) : List Char :=
  joinComma (state.map fun kv => kv.1 ++ '=' :: kv.2)

/-- A header carrier (`Record<string, string>`). -/
abbrev Carrier := List (List Char × List Char)

/-- `injectContext` from context.ts: write the formatted traceparent under the
lowercase `traceparent` key, and the tracestate under `tracestate` when one is
supplied and non-empty; return the carrier. -/
def injectContext (ctx : SpanContext) (carrier : Carrier)
    (traceState : Option (List (List Char × List Char))) : Carrier :=
  let c := setKV carrier ("traceparent".toList) (formatTraceparent ctx)
  match traceState with
  | some ts => if 0 < ts.length then setKV c ("tracestate".toList) (formatTracestate ts) else c
  | none => c

/-- `SpanKind` from types.ts. -/
inductive SpanKind where
  | client | server | producer | consumer | internal
deriving DecidableEq

/-- `SpanStatus` from types.ts. -/
inductive SpanStatus where
  | ok | error | unset
deriving DecidableEq

/-- An attribute value: `string | number | boolean | string[] | number[] | boolean[]`
(JS numbers modelled as integers; none of the claims do numeric arithmetic). -/
inductive AttrValue where
  | str (s : List Char)
  | num (n : Int)
  | bool (b : Bool)
  | strArr (l : List (List Char))
  | numArr (l : List Int)
  | boolArr (l : List Bool)
deriving DecidableEq

/-- `SpanAttributes` from types.ts, as an insertion-ordered string-keyed record. -/
abbrev AttrMap := List (List Char × AttrValue)

/-- Abstract time (milliseconds since epoch). -/
abbrev Time := Nat

/-- `SpanEvent` from types.ts (timestamp is the ISO rendering of a `Date`,
modelled abstractly). -/
structure SpanEvent where
  name : List Char
  timestamp : Time
  attributes : Option AttrMap
deriving DecidableEq

/-- `SpanData` from types.ts: the serialized wire shape produced by `toData`.
`none` models an absent (`undefined`/`null`-omitted) field. -/
structure SpanData where
  traceId : List Char
  spanId : List Char
  parentSpanId : Option (List Char)
  operationName : List Char
  serviceName : List Char
  spanKind : SpanKind
  startTime : Time
  endTime : Option Time
  status : SpanStatus
  statusMessage : Option (List Char)
  attributes : Option AttrMap
  events : Option (List SpanEvent)
  resourceAttributes : Option AttrMap
deriving DecidableEq

/-- The state of a `LoggySpan` (span.ts): its readonly identity fields plus the
private mutable fields. `onEnd` records whether a completion callback was
registered at construction (the tracer always registers one). -/
structure LoggySpan where
  context : SpanContext
  operationName : List Char
  serviceName : List Char
  startTime : Time
  spanKind : SpanKind
  status : SpanStatus
  statusMessage : Option (List Char)
  attributes : AttrMap
  events : List SpanEvent
  endTime : Option Time
  recording : Bool
  parentSpanId : Option (List Char)
  resourceAttributes : Option AttrMap
  onEnd : Bool
deriving DecidableEq

/-- The options record taken by the `LoggySpan` constructor. -/
structure SpanCtorOptions where
  traceId : List Char
  parentSpanId : Option (List Char) := none
  kind : Option SpanKind := none
  attributes : Option AttrMap := none
  startTime : Option Time := none
  resourceAttributes : Option AttrMap := none
  onEnd : Bool := false

/-- The `LoggySpan` constructor (span.ts): `kind` defaults to `internal`,
`startTime` to the current time `now`; the context gets the supplied trace id,
a freshly generated span id (`generateSpanId()`, passed in as `freshSpanId`),
and `traceFlags := 1` (sampled); `options.attributes` is copied if present. -/
def LoggySpan.create (operationName serviceName : List Char)
    (options : SpanCtorOptions) (freshSpanId : List Char) (now : Time) : LoggySpan :=
  { operationName := operationName
    serviceName := serviceName
    spanKind := options.kind.getD SpanKind.internal
    startTime := options.startTime.getD now
    parentSpanId := options.parentSpanId
    resourceAttributes := options.resourceAttributes
    onEnd := options.onEnd
    context := { traceId := options.traceId, spanId := freshSpanId, traceFlags := 1 }
    status := SpanStatus.unset
    statusMessage := none
    attributes := options.attributes.getD []
    events := []
    endTime := none
    recording := true }

/-- `LoggySpan.setStatus`: no-op unless recording; overwrites status and
message (an omitted message overwrites with `undefined`). -/
def LoggySpan.setStatus (s : LoggySpan) (status : SpanStatus)
    (message : Option (List Char)) : LoggySpan :=
  if s.recording then { s with status := status, statusMessage := message } else s

/-- `LoggySpan.setAttribute`: no-op unless recording; upserts one key. -/
def LoggySpan.setAttribute (s : LoggySpan) (k : List Char) (v : AttrValue) : LoggySpan :=
  if s.recording then { s with attributes := setKV s.attributes k v } else s

/-- `LoggySpan.setAttributes`: no-op unless recording; `Object.assign` upserts
each supplied entry in order. -/
def LoggySpan.setAttributes (s : LoggySpan) (m : AttrMap) : LoggySpan :=
  if s.recording then
    { s with attributes := m.foldl (fun acc kv => setKV acc kv.1 kv.2) s.attributes }
  else s

/-- `LoggySpan.addEvent`: no-op unless recording; appends an event stamped with
the current time `now`. -/
def LoggySpan.addEvent (s : LoggySpan) (name : List Char)
    (attributes : Option AttrMap) (now : Time) : LoggySpan :=
  if s.recording then
    { s with events := s.events ++ [{ name := name, timestamp := now, attributes := attributes }] }
  else s

/-- `LoggySpan.end` (named `endSpan`, `end` is reserved in Lean): no-op unless
recording; sets `endTime` to the argument or the current time, flips
`recording` off. The completion callback it then invokes acts on the tracer,
not on the span state; `endEmitsOnEnd` below models whether it fires. -/
def LoggySpan.endSpan (s : LoggySpan) (endTime : Option Time) (now : Time) : LoggySpan :=
  if s.recording then { s with endTime := some (endTime.getD now), recording := false } else s

/-- Whether a call to `end` invokes the registered completion callback: only
when the span was still recording and a callback was registered. -/
def LoggySpan.endEmitsOnEnd (s : LoggySpan) : Bool :=
  s.recording && s.onEnd

/-- `LoggySpan.isRecording`. -/
def LoggySpan.isRecording (s : LoggySpan) : Bool :=
  s.recording

/-- `LoggySpan.toData` (span.ts): serialization snapshot. `parentSpanId` uses
JS `this._parentSpanId || null`, which also maps an empty-string parent id to
null; `attributes`/`events` are emitted only when non-empty. -/
def LoggySpan.toData (s : LoggySpan) : SpanData :=
  { traceId := s.context.traceId
    spanId := s.context.spanId
    parentSpanId :=
      match s.parentSpanId with
      | some p => if p = [] then none else some p
      | none => none
    operationName := s.operationName
    serviceName := s.serviceName
    spanKind := s.spanKind
    startTime := s.startTime
    endTime := s.endTime
    status := s.status
    statusMessage := s.statusMessage
    attributes := if 0 < s.attributes.length then some s.attributes else none
    events := if 0 < s.events.length then some s.events else none
    resourceAttributes := s.resourceAttributes }

/-- The public `SpanOptions` accepted by `Tracer.startSpan` (types.ts). -/
structure SpanOptions where
  parent : Option SpanContext := none
  kind : Option SpanKind := none
  attributes : Option AttrMap := none
  startTime : Option Time := none

/-- `LoggyTracer.startSpan` (tracer source): inherit the parent's trace id and
record its span id as the parent span id when `options.parent` is supplied,
else use a freshly generated trace id (`generateTraceId()`, passed in as
`freshTraceId`); construct the span with the tracer's service name and
resource attributes and a registered `onEnd` callback. -/
def LoggyTracer.startSpan (serviceName : List Char) (resourceAttributes : AttrMap)
    (operationName : List Char) (options : SpanOptions)
    (freshTraceId freshSpanId : List Char) (now : Time) : LoggySpan :=
  let traceId :=
    match options.parent with
    | some p => p.traceId
    | none => freshTraceId
  let parentSpanId := options.parent.map fun p => p.spanId
  LoggySpan.create operationName serviceName
    { traceId := traceId
      parentSpanId := parentSpanId
      kind := options.kind
      attributes := options.attributes
      startTime := options.startTime
      resourceAttributes := some resourceAttributes
      onEnd := true }
    freshSpanId now

/-- `LoggyTracer.inject`: the active-span registry is a JS `Map` keyed by span
id; `Array.from(map.values())` lists the still-active spans in creation order,
so it is modelled as the list of their contexts in creation order. If the
registry is empty the carrier is returned unchanged, otherwise the last
(most-recently-created still-active) span's context is injected. -/
def LoggyTracer.inject (activeSpans : List SpanContext) (carrier : Carrier) : Carrier :=
  match activeSpans.getLast? with
  | none => carrier
  | some ctx => injectContext ctx carrier none

/-- Outcome of the single `fetch` a flush performs. -/
inductive NetOutcome where
  | ok | httpError | netThrow
deriving DecidableEq

/-- JS truthiness of `this.remote?.token`: configured means present and
non-empty. -/
def hasToken (token : Option (List Char)) : Bool :=
  match token with
  | none => false
  | some t => !t.isEmpty

/-- `LoggyTracer.flush` as a state transition on the span buffer. Inputs: the
configured token, the buffer at entry, the spans enqueued by `onSpanEnd` while
the network call is awaited (`arrivals`), and the network outcome. Output: the
final buffer and the list of batches POSTed. The early return fires when no
token is configured or the buffer is empty; otherwise the whole buffer is
swapped out (`spansToSend`), the live buffer restarts empty (accumulating
`arrivals`), one POST is issued, and on a non-ok response or a thrown network
error the swapped-out batch is prepended back in front of the live buffer.
The request body (plain or encrypted JSON) does not affect buffer state and is
not modelled. -/
def LoggyTracer.flush (token : Option (List Char)) (buffer : List SpanData)
    (arrivals : List SpanData) (net : NetOutcome) :
    List SpanData × List (List SpanData) :=
  if hasToken token = false ∨ buffer = [] then (buffer, [])
  else
    let spansToSend := buffer
    let live := arrivals
    match net with
    | NetOutcome.ok => (live, [spansToSend])
    | NetOutcome.httpError => (spansToSend ++ live, [spansToSend])
    | NetOutcome.netThrow => (spansToSend ++ live, [spansToSend])

/-- A JS `Error`: `name` and `stack` may be absent or empty (JS falsy). -/
structure JsError where
  name : Option (List Char)
  message : List Char
  stack : Option (List Char)
deriving DecidableEq

/-- JS `o || d` on an optional string: the fallback fires on `undefined` and
on the empty string. -/
def jsOrStr (o : Option (List Char)) (d : List Char) : List Char :=
  match o with
  | some s => if s = [] then d else s
  | none => d

/-- The attributes of the `exception` event recorded by `withSpan`:
`err.name || "Error"`, `err.message`, `err.stack || ""`. -/
def exceptionEventAttrs (e : JsError) : AttrMap :=
  [("exception.type".toList, AttrValue.str (jsOrStr e.name ("Error".toList))),
   ("exception.message".toList, AttrValue.str e.message),
   ("exception.stacktrace".toList, AttrValue.str (jsOrStr e.stack []))]

/-- `withSpan` (middleware.ts): start an internal-kind span (parented on the
tracer's current span context, if any), run the operation, and on resolution
set status ok and end the span, returning the result; on rejection set status
error with the error's message, add one `exception` event, end the span, and
re-throw the same error. The operation's outcome is the `outcome` parameter;
`tEnd` is the wall-clock time at settlement. -/
def withSpan {α : Type} (serviceName : List Char) (resourceAttributes : AttrMap)
    (operationName : List Char) (attributes : Option AttrMap)
    (parent : Option SpanContext) (freshTraceId freshSpanId : List Char)
    (now : Time) (outcome : Except JsError α) (tEnd : Time) :
    Except JsError α × LoggySpan :=
  let span := LoggyTracer.startSpan serviceName resourceAttributes operationName
    { parent := parent, kind := some SpanKind.internal, attributes := attributes }
    freshTraceId freshSpanId now
  match outcome with
  | Except.ok v =>
    let s := span.setStatus SpanStatus.ok none
    (Except.ok v, s.endSpan none tEnd)
  | Except.error e =>
    let s := span.setStatus SpanStatus.error (some e.message)
    let s := s.addEvent ("exception".toList) (some (exceptionEventAttrs e)) tEnd
    (Except.error e, s.endSpan none tEnd)

/-! ### Helper lemmas -/

theorem lookupKV_setKV_self {β : Type} (m : List (List Char × β)) (k : List Char) (v : β) :
    lookupKV (setKV m k v) k = some v := by
  induction m with
  | nil => simp [setKV, lookupKV]
  | cons hd tl ih =>
    obtain ⟨k', v'⟩ := hd
    by_cases h : k' = k
    · simp [setKV, lookupKV, h]
    · simp [setKV, lookupKV, h, ih]

theorem lookupKV_setKV_ne {β : Type} (m : List (List Char × β)) (k k' : List Char) (v : β)
    (h : k' ≠ k) : lookupKV (setKV m k v) k' = lookupKV m k' := by
  induction m with
  | nil =>
    have hk : ¬(k = k') := fun hh => h hh.symm
    simp [setKV, lookupKV, hk]
  | cons hd tl ih =>
    obtain ⟨k0, v0⟩ := hd
    by_cases h0 : k0 = k
    · subst h0
      have hk : ¬(k0 = k') := fun hh => h hh.symm
      simp [setKV, lookupKV, hk]
    · simp only [setKV, lookupKV, if_neg h0]
      by_cases h1 : k0 = k'
      · simp [lookupKV, h1]
      · simp [lookupKV, h1, ih]

theorem isLowerHex_mem {c : Char} (h : isLowerHex c = true) : c ∈ hexChars :=
  of_decide_eq_true h

theorem isLowerHex_ne_dash {c : Char} (h : isLowerHex c = true) : c ≠ '-' := by
  have hm := isLowerHex_mem h
  fin_cases hm <;> decide

theorem isLowerHex_not_ws {c : Char} (h : isLowerHex c = true) : isJSWS c = false := by
  have hm := isLowerHex_mem h
  fin_cases hm <;> decide

theorem splitDash_append_dash (xs ys : List Char) (h : ∀ c ∈ xs, c ≠ '-') :
    splitDash (xs ++ '-' :: ys) = xs :: splitDash ys := by
  induction xs with
  | nil => simp [splitDash]
  | cons c rest ih =>
    have hc : c ≠ '-' := h c (List.mem_cons_self c rest)
    have hrest : ∀ x ∈ rest, x ≠ '-' := fun x hx => h x (List.mem_cons_of_mem _ hx)
    simp only [List.cons_append, splitDash, List.append_eq]
    rw [ih hrest]
    simp [hc]

theorem splitDash_no_dash (xs : List Char) (h : ∀ c ∈ xs, c ≠ '-') :
    splitDash xs = [xs] := by
  induction xs with
  | nil => rfl
  | cons c rest ih =>
    have hc : c ≠ '-' := h c (List.mem_cons_self c rest)
    have hrest : ∀ x ∈ rest, x ≠ '-' := fun x hx => h x (List.mem_cons_of_mem _ hx)
    simp only [splitDash]
    rw [ih hrest]
    simp [hc]

theorem dropWhile_reverse_last {p : Char → Bool} (l : List Char) (c : Char)
    (h : p c = false) : ((l ++ [c]).reverse).dropWhile p = c :: l.reverse := by
  simp [List.reverse_append, List.dropWhile_cons, h]

theorem trimJS_of_clean_ends (M : List Char) (a c : Char)
    (ha : isJSWS a = false) (hc : isJSWS c = false) :
    trimJS ((a :: M) ++ [c]) = (a :: M) ++ [c] := by
  unfold trimJS
  have h1 : ((a :: M) ++ [c]).dropWhile isJSWS = (a :: M) ++ [c] := by
    simp [List.cons_append, List.dropWhile_cons, ha]
  rw [h1, dropWhile_reverse_last (a :: M) c hc]
  simp

theorem splitDash_headerOf (tid sid fl : List Char)
    (htid : ∀ c ∈ tid, c ≠ '-') (hsid : ∀ c ∈ sid, c ≠ '-') (hfl : ∀ c ∈ fl, c ≠ '-') :
    splitDash (headerOf tid sid fl) = [['0', '0'], tid, sid, fl] := by
  unfold headerOf
  have h0 : splitDash (['0', '0'] ++ '-' :: (tid ++ '-' :: (sid ++ '-' :: fl)))
      = ['0', '0'] :: splitDash (tid ++ '-' :: (sid ++ '-' :: fl)) :=
    splitDash_append_dash _ _ (by intro c hc; fin_cases hc <;> decide)
  rw [h0, splitDash_append_dash _ _ htid, splitDash_append_dash _ _ hsid,
    splitDash_no_dash _ hfl]

theorem flags_roundtrip_all :
    (hexChars.all fun c1 => hexChars.all fun c2 =>
      decide (padStart2 (Nat.toDigits 16 (hexVal c1 * 16 + hexVal c2)) = [c1, c2])) = true := by
  decide

theorem flags_roundtrip {c1 c2 : Char} (h1 : isLowerHex c1 = true)
    (h2 : isLowerHex c2 = true) :
    padStart2 (Nat.toDigits 16 (hexVal c1 * 16 + hexVal c2)) = [c1, c2] := by
  have m1 := isLowerHex_mem h1
  have m2 := isLowerHex_mem h2
  have ha := List.all_eq_true.mp flags_roundtrip_all c1 m1
  have hb := List.all_eq_true.mp ha c2 m2
  exact of_decide_eq_true hb

theorem hexToNat_two (c1 c2 : Char) :
    hexToNat [c1, c2] = hexVal c1 * 16 + hexVal c2 := by
  simp [hexToNat, List.foldl]

theorem endSpan_not_recording (s : LoggySpan) (t : Option Time) (n : Time) :
    (s.endSpan t n).recording = false := by
  unfold LoggySpan.endSpan
  split
  · rfl
  · simp_all

/-! ### Claim theorems -/

/-- C10: every span created by `Tracer.startSpan` has `context.traceFlags = 1`
(sampled), for every option record — in particular the parent's `traceFlags`
(whatever value the supplied parent context carries) is never propagated to
the child's own context. -/
theorem startSpan_traceFlags_sampled (svc : List Char) (res : AttrMap)
    (op : List Char) (opts : SpanOptions) (ftid fsid : List Char) (now : Time) :
    (LoggyTracer.startSpan svc res op opts ftid fsid now).context.traceFlags = 1 := by
  unfold LoggyTracer.startSpan LoggySpan.create
  rfl

/-- C1: a span started with `options.parent = P` inherits `P.traceId` and
reports `P.spanId` as its `parentSpanId` in `toData()`; a span started with no
parent uses the freshly generated trace id and reports a null `parentSpanId`.
The hypothesis that `P.spanId` is non-empty holds for every span context the
SDK produces (span ids are 16 hex characters), and is needed because
`toData()` maps an empty-string parent id to null via `|| null`. -/
theorem startSpan_parent_linkage (svc : List Char) (res : AttrMap)
    (op : List Char) (opts : SpanOptions) (P : SpanContext) (hP : P.spanId ≠ [])
    (ftid fsid : List Char) (now : Time) :
    (LoggyTracer.startSpan svc res op { opts with parent := some P }
      ftid fsid now).context.traceId = P.traceId ∧
    (LoggyTracer.startSpan svc res op { opts with parent := some P }
      ftid fsid now).toData.parentSpanId = some P.spanId ∧
    (LoggyTracer.startSpan svc res op { opts with parent := none }
      ftid fsid now).context.traceId = ftid ∧
    (LoggyTracer.startSpan svc res op { opts with parent := none }
      ftid fsid now).toData.parentSpanId = none := by
  refine ⟨rfl, ?_, rfl, rfl⟩
  simp [LoggyTracer.startSpan, LoggySpan.create, LoggySpan.toData, hP]

/-- Witness for C1 at a concrete parent context and concrete fresh ids. -/
theorem startSpan_parent_linkage_witness :
    (LoggyTracer.startSpan [] [] [] { parent := some ⟨['a'], ['b'], 1, none⟩ }
      ['c'] ['d'] 0).context.traceId = ['a'] ∧
    (LoggyTracer.startSpan [] [] [] { parent := some ⟨['a'], ['b'], 1, none⟩ }
      ['c'] ['d'] 0).toData.parentSpanId = some ['b'] ∧
    (LoggyTracer.startSpan [] [] [] { parent := none }
      ['c'] ['d'] 0).context.traceId = ['c'] ∧
    (LoggyTracer.startSpan [] [] [] { parent := none }
      ['c'] ['d'] 0).toData.parentSpanId = none :=
  startSpan_parent_linkage [] [] [] {} ⟨['a'], ['b'], 1, none⟩ (by decide) ['c'] ['d'] 0

/-- C5: once `end()` has been called on a span, `setStatus`, `setAttribute`,
`setAttributes` and `addEvent` leave the span state (hence `toData()`)
unchanged, and `isRecording()` returns false. All operations are total
functions of the model, so no call can raise. -/
theorem span_mutation_after_end_noop (s : LoggySpan) (t : Option Time)
    (n now : Time) (st : SpanStatus) (msg : Option (List Char)) (k : List Char)
    (v : AttrValue) (m : AttrMap) (nm : List Char) (ats : Option AttrMap) :
    (s.endSpan t n).setStatus st msg = s.endSpan t n ∧
    (s.endSpan t n).setAttribute k v = s.endSpan t n ∧
    (s.endSpan t n).setAttributes m = s.endSpan t n ∧
    (s.endSpan t n).addEvent nm ats now = s.endSpan t n ∧
    ((s.endSpan t n).setStatus st msg).toData = (s.endSpan t n).toData ∧
    ((s.endSpan t n).setAttribute k v).toData = (s.endSpan t n).toData ∧
    ((s.endSpan t n).setAttributes m).toData = (s.endSpan t n).toData ∧
    ((s.endSpan t n).addEvent nm ats now).toData = (s.endSpan t n).toData ∧
    (s.endSpan t n).isRecording = false := by
  have hrec := endSpan_not_recording s t n
  have h1 : (s.endSpan t n).setStatus st msg = s.endSpan t n := by
    unfold LoggySpan.setStatus; simp [hrec]
  have h2 : (s.endSpan t n).setAttribute k v = s.endSpan t n := by
    unfold LoggySpan.setAttribute; simp [hrec]
  have h3 : (s.endSpan t n).setAttributes m = s.endSpan t n := by
    unfold LoggySpan.setAttributes; simp [hrec]
  have h4 : (s.endSpan t n).addEvent nm ats now = s.endSpan t n := by
    unfold LoggySpan.addEvent; simp [hrec]
  exact ⟨h1, h2, h3, h4, congrArg LoggySpan.toData h1, congrArg LoggySpan.toData h2,
    congrArg LoggySpan.toData h3, congrArg LoggySpan.toData h4, hrec⟩

/-- C6: `end()` is idempotent on any span produced by the constructor with a
registered completion callback: the second `end()` call (with any arguments)
returns the state unchanged, so `toData()` after two calls equals `toData()`
after one and `endTime` keeps the value set by the first call; the completion
callback fires on the first call and not on the second — exactly once. -/
theorem span_end_idempotent (op svc : List Char) (opts : SpanCtorOptions)
    (fsid : List Char) (now0 : Time) (t1 t2 : Option Time) (n1 n2 : Time) :
    ((LoggySpan.create op svc { opts with onEnd := true } fsid now0).endSpan t1 n1).endSpan t2 n2
      = (LoggySpan.create op svc { opts with onEnd := true } fsid now0).endSpan t1 n1 ∧
    (((LoggySpan.create op svc { opts with onEnd := true } fsid now0).endSpan t1 n1).endSpan t2 n2).toData
      = ((LoggySpan.create op svc { opts with onEnd := true } fsid now0).endSpan t1 n1).toData ∧
    ((LoggySpan.create op svc { opts with onEnd := true } fsid now0).endSpan t1 n1).endTime
      = some (t1.getD n1) ∧
    ((if (LoggySpan.create op svc { opts with onEnd := true } fsid now0).endEmitsOnEnd then 1 else 0)
      + (if ((LoggySpan.create op svc { opts with onEnd := true } fsid now0).endSpan t1 n1).endEmitsOnEnd then 1 else 0)
      : Nat) = 1 := by
  refine ⟨?_, ?_, rfl, rfl⟩ <;> rfl

/-- C7: `toData()` emits `attributes` exactly when the attribute map is
non-empty and `events` exactly when the event list is non-empty; a span
constructed without an `attributes` option starts with an empty attribute map
and every span starts with no events, and no operation other than
`setAttribute`/`setAttributes` (resp. `addEvent`) ever touches them. -/
theorem toData_omits_empty_containers (s : LoggySpan) (op svc : List Char)
    (opts : SpanCtorOptions) (fsid : List Char) (now : Time) (st : SpanStatus)
    (msg : Option (List Char)) (t : Option Time) (n nowE : Time) (nm : List Char)
    (ats : Option AttrMap) (k : List Char) (v : AttrValue) (m : AttrMap) :
    (s.toData.attributes = if s.attributes = [] then none else some s.attributes) ∧
    (s.toData.events = if s.events = [] then none else some s.events) ∧
    (LoggySpan.create op svc { opts with attributes := none } fsid now).attributes = [] ∧
    (LoggySpan.create op svc opts fsid now).events = [] ∧
    (s.setStatus st msg).attributes = s.attributes ∧
    (s.addEvent nm ats nowE).attributes = s.attributes ∧
    (s.endSpan t n).attributes = s.attributes ∧
    (s.setStatus st msg).events = s.events ∧
    (s.setAttribute k v).events = s.events ∧
    (s.setAttributes m).events = s.events ∧
    (s.endSpan t n).events = s.events := by
  refine ⟨?_, ?_, rfl, rfl, ?_, ?_, ?_, ?_, ?_, ?_, ?_⟩
  · unfold LoggySpan.toData
    rcases s.attributes with _ | ⟨a, l⟩ <;> simp
  · unfold LoggySpan.toData
    rcases s.events with _ | ⟨a, l⟩ <;> simp
  · unfold LoggySpan.setStatus; split <;> rfl
  · unfold LoggySpan.addEvent; split <;> rfl
  · unfold LoggySpan.endSpan; split <;> rfl
  · unfold LoggySpan.setStatus; split <;> rfl
  · unfold LoggySpan.setAttribute; split <;> rfl
  · unfold LoggySpan.setAttributes; split <;> rfl
  · unfold LoggySpan.endSpan; split <;> rfl

/-- C8: when the wrapped operation rejects with error `e`, `withSpan` rejects
with the same `e` unchanged and its span ends (non-recording, `endTime` set)
with status error, message taken from `e`, and exactly one event, named
`exception`, carrying the error's type, message and stack; when the operation
resolves with `v`, `withSpan` resolves with `v` and the span ends with status
ok. -/
theorem withSpan_error_propagation (α : Type) (svc : List Char) (res : AttrMap)
    (op : List Char) (ats : Option AttrMap) (parent : Option SpanContext)
    (ftid fsid : List Char) (now tEnd : Time) :
    (∀ e : JsError,
      (@withSpan α svc res op ats parent ftid fsid now (Except.error e) tEnd).1
        = Except.error e ∧
      (@withSpan α svc res op ats parent ftid fsid now (Except.error e) tEnd).2.status
        = SpanStatus.error ∧
      (@withSpan α svc res op ats parent ftid fsid now (Except.error e) tEnd).2.statusMessage
        = some e.message ∧
      (@withSpan α svc res op ats parent ftid fsid now (Except.error e) tEnd).2.events
        = [{ name := "exception".toList, timestamp := tEnd,
             attributes := some (exceptionEventAttrs e) }] ∧
      (@withSpan α svc res op ats parent ftid fsid now (Except.error e) tEnd).2.recording
        = false ∧
      (@withSpan α svc res op ats parent ftid fsid now (Except.error e) tEnd).2.endTime
        = some tEnd) ∧
    (∀ v : α,
      (@withSpan α svc res op ats parent ftid fsid now (Except.ok v) tEnd).1
        = Except.ok v ∧
      (@withSpan α svc res op ats parent ftid fsid now (Except.ok v) tEnd).2.status
        = SpanStatus.ok ∧
      (@withSpan α svc res op ats parent ftid fsid now (Except.ok v) tEnd).2.recording
        = false ∧
      (@withSpan α svc res op ats parent ftid fsid now (Except.ok v) tEnd).2.endTime
        = some tEnd) :=
  ⟨fun _ => ⟨rfl, rfl, rfl, rfl, rfl, rfl⟩, fun _ => ⟨rfl, rfl, rfl, rfl⟩⟩

/-- C4: `flush()` is a no-op issuing no POST when no token is configured or
the buffer is empty; otherwise it swaps the whole buffer out, issues exactly
one POST containing that batch, and the final buffer is the spans that arrived
during the network call when the POST succeeded, or the swapped-out batch
prepended back in front of them on a non-success response or a thrown network
error — no buffered record is ever discarded, and the model handles the
thrown-error outcome identically to the failure response instead of
propagating it. -/
theorem flush_buffer_semantics (token : Option (List Char))
    (buffer arrivals : List SpanData) (net : NetOutcome) :
    ((hasToken token = false ∨ buffer = []) →
      LoggyTracer.flush token buffer arrivals net = (buffer, [])) ∧
    (hasToken token = true → buffer ≠ [] →
      (LoggyTracer.flush token buffer arrivals net).2 = [buffer] ∧
      (LoggyTracer.flush token buffer arrivals net).1 =
        (if net = NetOutcome.ok then arrivals else buffer ++ arrivals)) := by
  constructor
  · intro h
    unfold LoggyTracer.flush
    rw [if_pos h]
  · intro h1 h2
    unfold LoggyTracer.flush
    rw [if_neg (by simp [h1, h2])]
    cases net <;> simp

/-- A concrete serialized span used by witnesses. -/
def sampleSpanData : SpanData :=
  { traceId := ['a'], spanId := ['b'], parentSpanId := none, operationName := ['o'],
    serviceName := ['s'], spanKind := SpanKind.internal, startTime := 0,
    endTime := none, status := SpanStatus.unset, statusMessage := none,
    attributes := none, events := none, resourceAttributes := none }

/-- Witness for C4: the no-token no-op branch and the failing-POST requeue
branch, each at concrete inputs. -/
theorem flush_buffer_semantics_witness :
    LoggyTracer.flush none [sampleSpanData] [] NetOutcome.ok = ([sampleSpanData], []) ∧
    (LoggyTracer.flush (some ['t']) [sampleSpanData] [] NetOutcome.httpError).2
      = [[sampleSpanData]] ∧
    (LoggyTracer.flush (some ['t']) [sampleSpanData] [] NetOutcome.httpError).1
      = [sampleSpanData] := by
  refine ⟨?_, ?_, ?_⟩
  · exact (flush_buffer_semantics none [sampleSpanData] [] NetOutcome.ok).1
      (Or.inl (by decide))
  · exact ((flush_buffer_semantics (some ['t']) [sampleSpanData] []
      NetOutcome.httpError).2 (by decide) (by simp [sampleSpanData])).1
  · have h := ((flush_buffer_semantics (some ['t']) [sampleSpanData] []
      NetOutcome.httpError).2 (by decide) (by simp [sampleSpanData])).2
    simpa using h

/-- C9: `inject(carrier)` returns the carrier unchanged when the active-span
registry is empty; otherwise it writes the formatted traceparent of the last
(most-recently-created still-active) registry entry into the carrier under the
lowercase `traceparent` key and returns it, leaving every other key's value
unchanged. -/
theorem inject_current_span (active : List SpanContext) (carrier : Carrier) :
    (active = [] → LoggyTracer.inject active carrier = carrier) ∧
    (∀ ctx, active.getLast? = some ctx →
      LoggyTracer.inject active carrier
        = setKV carrier ("traceparent".toList) (formatTraceparent ctx) ∧
      lookupKV (LoggyTracer.inject active carrier) ("traceparent".toList)
        = some (formatTraceparent ctx) ∧
      ∀ k, k ≠ "traceparent".toList →
        lookupKV (LoggyTracer.inject active carrier) k = lookupKV carrier k) := by
  constructor
  · intro h
    subst h
    rfl
  · intro ctx hlast
    have hinj : LoggyTracer.inject active carrier
        = setKV carrier ("traceparent".toList) (formatTraceparent ctx) := by
      unfold LoggyTracer.inject
      rw [hlast]
      rfl
    refine ⟨hinj, ?_, ?_⟩
    · rw [hinj]
      exact lookupKV_setKV_self carrier _ _
    · intro k hk
      rw [hinj]
      exact lookupKV_setKV_ne carrier _ k _ hk

/-- Witness for C9: a singleton registry and a one-entry carrier; the foreign
key `x` is untouched and the empty-registry no-op holds. -/
theorem inject_current_span_witness :
    LoggyTracer.inject [⟨['a'], ['b'], 1, none⟩] [(['x'], ['y'])]
      = setKV [(['x'], ['y'])] ("traceparent".toList)
          (formatTraceparent ⟨['a'], ['b'], 1, none⟩) ∧
    lookupKV (LoggyTracer.inject [⟨['a'], ['b'], 1, none⟩] [(['x'], ['y'])])
        ("traceparent".toList)
      = some (formatTraceparent ⟨['a'], ['b'], 1, none⟩) ∧
    lookupKV (LoggyTracer.inject [⟨['a'], ['b'], 1, none⟩] [(['x'], ['y'])]) ['x']
      = lookupKV [(['x'], ['y'])] ['x'] ∧
    LoggyTracer.inject [] [(['x'], ['y'])] = [(['x'], ['y'])] := by
  have h := (inject_current_span [⟨['a'], ['b'], 1, none⟩] [(['x'], ['y'])]).2
    ⟨['a'], ['b'], 1, none⟩ rfl
  exact ⟨h.1, h.2.1, h.2.2 ['x'] (by decide),
    (inject_current_span [] [(['x'], ['y'])]).1 rfl⟩

/-- C2: for every well-formed header — version `00`, 32 lowercase-hex non-zero
trace id, 16 lowercase-hex non-zero span id, 2 lowercase-hex flags —
`parseTraceparent` returns the context carrying those fields (flags decoded
from hex) and `formatTraceparent` maps that context back to the identical
header string. -/
theorem traceparent_roundtrip (tid sid fl : List Char)
    (h1 : hexMatch 32 tid = true) (h2 : tid ≠ List.replicate 32 '0')
    (h3 : hexMatch 16 sid = true) (h4 : sid ≠ List.replicate 16 '0')
    (h5 : hexMatch 2 fl = true) :
    parseTraceparent (headerOf tid sid fl)
      = some { traceId := tid, spanId := sid, traceFlags := hexToNat fl } ∧
    formatTraceparent { traceId := tid, spanId := sid, traceFlags := hexToNat fl }
      = headerOf tid sid fl := by
  obtain ⟨hlen5, hall5⟩ : fl.length = 2 ∧ fl.all isLowerHex = true := by
    simpa [hexMatch] using h5
  obtain ⟨hallt, halls⟩ : tid.all isLowerHex = true ∧ sid.all isLowerHex = true := by
    constructor
    · exact (by simpa [hexMatch] using h1 : tid.length = 32 ∧ _).2
    · exact (by simpa [hexMatch] using h3 : sid.length = 16 ∧ _).2
  rcases fl with _ | ⟨c1, fl⟩
  · simp at hlen5
  rcases fl with _ | ⟨c2, fl⟩
  · simp at hlen5
  rcases fl with _ | ⟨c3, fl⟩
  case cons.cons.cons => simp at hlen5
  obtain ⟨hc1, hc2⟩ : isLowerHex c1 = true ∧ isLowerHex c2 = true := by
    simpa using hall5
  have htd : ∀ c ∈ tid, c ≠ '-' :=
    fun c hc => isLowerHex_ne_dash (List.all_eq_true.mp hallt c hc)
  have hsd : ∀ c ∈ sid, c ≠ '-' :=
    fun c hc => isLowerHex_ne_dash (List.all_eq_true.mp halls c hc)
  have hfd : ∀ c ∈ [c1, c2], c ≠ '-' := by
    intro c hc
    have hcc : c = c1 ∨ c = c2 := by simpa using hc
    rcases hcc with rfl | rfl
    · exact isLowerHex_ne_dash hc1
    · exact isLowerHex_ne_dash hc2
  have hshape : headerOf tid sid [c1, c2]
      = ('0' :: ('0' :: '-' :: (tid ++ '-' :: (sid ++ ['-', c1])))) ++ [c2] := by
    simp [headerOf]
  have htrim : trimJS (headerOf tid sid [c1, c2]) = headerOf tid sid [c1, c2] := by
    rw [hshape]
    rw [trimJS_of_clean_ends _ _ _ (by decide) (isLowerHex_not_ws hc2)]
  constructor
  · unfold parseTraceparent
    rw [if_neg (by simp [headerOf])]
    rw [htrim, splitDash_headerOf tid sid [c1, c2] htd hsd hfd]
    simp [h1, h3, h5]
    exact ⟨by simpa using h2, by simpa using h4⟩
  · unfold formatTraceparent headerOf
    rw [hexToNat_two, flags_roundtrip hc1 hc2]

/-- Witness for C2 at the claim's own example header. -/
theorem traceparent_roundtrip_witness :
    parseTraceparent ("00-0af7651916cd43dd8448eb211c80319c-b7ad6b7169203331-01".toList)
      = some { traceId := "0af7651916cd43dd8448eb211c80319c".toList,
               spanId := "b7ad6b7169203331".toList, traceFlags := 1 } ∧
    formatTraceparent
        { traceId := "0af7651916cd43dd8448eb211c80319c".toList,
          spanId := "b7ad6b7169203331".toList, traceFlags := 1 }
      = "00-0af7651916cd43dd8448eb211c80319c-b7ad6b7169203331-01".toList := by
  have h := traceparent_roundtrip ("0af7651916cd43dd8448eb211c80319c".toList)
    ("b7ad6b7169203331".toList) ("01".toList)
    (by decide) (by decide) (by decide) (by decide) (by decide)
  have e1 : "00-0af7651916cd43dd8448eb211c80319c-b7ad6b7169203331-01".toList
      = headerOf ("0af7651916cd43dd8448eb211c80319c".toList)
          ("b7ad6b7169203331".toList) ("01".toList) := by decide
  have e2 : hexToNat ("01".toList) = 1 := by decide
  rw [e1, ← e2]
  exact h

/-- C3, amended: `parseTraceparent` never throws (it is a total function of
the model) and returns the null sentinel exactly when the whitespace-trimmed
input fails the claim's validation — dash-separated field count of the trimmed
input not 4, version not `00`, trace id not 32 lowercase hex or all zeros,
span id not 16 lowercase hex or all zeros, or flags not exactly 2 lowercase
hex digits — and otherwise returns the context carrying those fields. -/
theorem parseTraceparent_characterization (h : List Char) :
    parseTraceparent h = specParseC3trim h := by
  unfold parseTraceparent specParseC3trim specParseC3raw
  by_cases hh : h = []
  · subst hh
    rfl
  · rw [if_neg hh]
    cases e : splitDash (trimJS h) with
    | nil => rfl
    | cons v tl =>
      cases tl with
      | nil => rfl
      | cons t tl =>
        cases tl with
        | nil => rfl
        | cons s tl =>
          cases tl with
          | nil => rfl
          | cons f tl =>
            cases tl with
            | cons x r => rfl
            | nil =>
              dsimp only
              split_ifs <;> simp_all

/-- Counterexample to C3 as stated: on the input
`" 00-0af7651916cd43dd8448eb211c80319c-b7ad6b7169203331-01"` (one leading
space) the claim's validation fails — the raw dash-separated version field is
`" 00"`, not `"00"` — so the claim requires a null result, but
`parseTraceparent` trims the input first and returns a parsed context. -/
theorem parseTraceparent_claim_counterexample :
    specParseC3raw (" 00-0af7651916cd43dd8448eb211c80319c-b7ad6b7169203331-01".toList)
      = none ∧
    parseTraceparent (" 00-0af7651916cd43dd8448eb211c80319c-b7ad6b7169203331-01".toList)
      = some { traceId := "0af7651916cd43dd8448eb211c80319c".toList,
               spanId := "b7ad6b7169203331".toList, traceFlags := 1 } := by
  constructor <;> decide
